import Mathlib

/-!
Verification development for the sendy repository: a shallow embedding of the
router server (src/unnamed/part_003), the router client (src/router/client.go),
the p2p connector (src/p2p/webrtc_integration_test.go) and the crypto layer
(the p2p package file embedded in src/cmd/sendy/main.go), together with proofs
about the claims of the specification.

Bytes are modelled as lists of naturals (each intended < 256); 32-bit machine
arithmetic is modelled explicitly with mod 2^32.
-/

namespace Sendy

/-- A byte string, one natural per byte. -/
abbrev Bytes := List Nat

/-- A peer identity: the 32-byte Ed25519 public key (src/unnamed/part_001). -/
abbrev PeerID := Bytes

/-- Wrapping uint32 subtraction `a - b` as Go computes it on uint32 values
(valid model for `b ≤ 2 ^ 32`). -/
def wsub32 (a b : Nat) : Nat := (a + (2 ^ 32 - b)) % 2 ^ 32

/-- Association-list lookup, the model of `sync.Map.Load` keyed by PeerID. -/
def lookupA {α : Type} : List (PeerID × α) → PeerID → Option α
  | [], _ => none
  | (k, v) :: t, k' => if k = k' then some v else lookupA t k'

/-- Association-list store, the model of `sync.Map.Store`: replaces the
binding for the key if present, otherwise appends it. -/
def storeA {α : Type} : List (PeerID × α) → PeerID → α → List (PeerID × α)
  | [], k, v => [(k, v)]
  | (k', v') :: t, k, v => if k' = k then (k, v) :: t else (k', v') :: storeA t k v

/-- The keys of an association list. -/
def keysOf {α : Type} (m : List (PeerID × α)) : List PeerID := m.map Prod.fst

namespace Router

/-- src/router/const.go: maximum frame size (32 KiB). -/
def MaxPacketSize : Nat := 32 * 1024

/-- src/router/const.go: request-id size. -/
def RequestIDSize : Nat := 12

/-- src/router/const.go: peer-id size (ed25519.PublicKeySize). -/
def PeerIDSize : Nat := 32

/-- src/router/const.go: `4 + RequestIDSize + PeerIDSize`. -/
def PeerHeaderSize : Nat := 4 + RequestIDSize + PeerIDSize

/-- src/unnamed/part_002: server-message type code `Success = 0`. -/
def Success : Nat := 0

/-- src/unnamed/part_002: server-message type code `Error = 1`. -/
def Error : Nat := 1

/-- src/unnamed/part_002: server-message type code `NotFound = 2`. -/
def NotFound : Nat := 2

/-- src/unnamed/part_002: server-message type code `Income = 3`. -/
def Income : Nat := 3

/-- How the sender's TCP stream ends after the bytes it still has available:
a graceful EOF (`io.Copy` treats it as success) or a connection read error. -/
inductive StreamEnd where
  | eof
  | rerr
deriving DecidableEq

/-- The sender connection's read side after the 48-byte header: the payload
bytes actually available, and how the stream behaves once they are consumed. -/
structure SenderStream where
  bytes : Bytes
  endK : StreamEnd
deriving DecidableEq

/-- Everything `handleMessage` (src/unnamed/part_003:689-811) writes, observed
per destination.  `incomeHeader` records the Income frame header written to
the recipient as `(declared MessageLen, RequestID, SenderID)`; `incomeBody`
the payload bytes that followed it in a completed copy; `responses` the
`(type, RequestID)` response frames written back to the sender; `connErr`
whether `handleMessage` returned a non-nil error (the connection loop stops). -/
structure RouteResult where
  tooBig : Bool
  drained : Nat
  incomeHeader : Option (Nat × Bytes × PeerID)
  incomeBody : Bytes
  responses : List (Nat × Bytes)
  connErr : Bool
deriving DecidableEq

/-- The router's payload-length computation
(src/unnamed/part_003:717): `payloadLen := mlen - RequestIDSize - PeerIDSize`
on uint32 values. -/
def payloadLenOf (mlen : Nat) : Nat := wsub32 mlen (RequestIDSize + PeerIDSize)

/-- The declared `MessageLen` of an Income frame
(src/unnamed/part_003:751): `uint32(1 + RequestIDSize + PeerIDSize +
payloadLen)`. -/
def incomeDeclaredLen (payloadLen : Nat) : Nat :=
  (1 + RequestIDSize + PeerIDSize + payloadLen) % 2 ^ 32

/-- Model of `handleMessage` (src/unnamed/part_003:689-811).  The 48-byte
header has already been read in full and parsed into `mlen` (the big-endian
`MessageLen`), `reqID` and `recipient`; `senderId` is the authenticated
identity of the sending connection; `reg` is the `peers` map; `stream` is the
sender's read side; `incomeWriteOk` and `payloadWriteOk` model whether the
two writes to the recipient connection succeed.  The payload length is
computed by unchecked uint32 subtraction exactly as the source does. -/
def handleMessage (reg : List (PeerID × Nat)) (senderId : PeerID) (mlen : Nat)
    (reqID : Bytes) (recipient : PeerID) (stream : SenderStream)
    (incomeWriteOk payloadWriteOk : Bool) : RouteResult :=
  if MaxPacketSize < mlen then
    { tooBig := true, drained := 0, incomeHeader := none, incomeBody := [],
      responses := [], connErr := true }
  else
    match lookupA reg recipient with
    | none =>
      if 0 < payloadLenOf mlen then
        if stream.bytes.length < payloadLenOf mlen ∧ stream.endK = StreamEnd.rerr then
          -- read error while draining: handleMessage returns before any reply
          { tooBig := false, drained := stream.bytes.length, incomeHeader := none,
            incomeBody := [], responses := [], connErr := true }
        else
          { tooBig := false, drained := min (payloadLenOf mlen) stream.bytes.length,
            incomeHeader := none, incomeBody := [],
            responses := [(NotFound, reqID)], connErr := false }
      else
        { tooBig := false, drained := 0, incomeHeader := none, incomeBody := [],
          responses := [(NotFound, reqID)], connErr := false }
    | some _ =>
      if incomeWriteOk then
        if 0 < payloadLenOf mlen then
          if (stream.bytes.length < payloadLenOf mlen ∧ stream.endK = StreamEnd.rerr)
              ∨ payloadWriteOk = false then
            { tooBig := false, drained := min (payloadLenOf mlen) stream.bytes.length,
              incomeHeader := some (incomeDeclaredLen (payloadLenOf mlen), reqID, senderId),
              incomeBody := [], responses := [(Error, reqID)], connErr := true }
          else
            { tooBig := false, drained := min (payloadLenOf mlen) stream.bytes.length,
              incomeHeader := some (incomeDeclaredLen (payloadLenOf mlen), reqID, senderId),
              incomeBody := stream.bytes.take (payloadLenOf mlen),
              responses := [(Success, reqID)], connErr := false }
        else
          { tooBig := false, drained := 0,
            incomeHeader := some (incomeDeclaredLen (payloadLenOf mlen), reqID, senderId),
            incomeBody := [], responses := [(Success, reqID)], connErr := false }
      else
        { tooBig := false, drained := 0, incomeHeader := none, incomeBody := [],
          responses := [(Error, reqID)], connErr := true }

/-- The registry side of the router: the `peers` map plus the set of
connection ids that have been closed by the server. -/
structure RouterState where
  registry : List (PeerID × Nat)
  closed : List Nat
deriving DecidableEq

/-- Model of the registration step of `handleConn`
(src/unnamed/part_003:649-687): after a successful challenge-response
authentication the new connection is stored under its PeerID with
`peers.Store(id, peer)`.  No other state is touched: in particular no prior
connection registered under the same id is closed. -/
def registerConn (s : RouterState) (id : PeerID) (conn : Nat) : RouterState :=
  { s with registry := storeA s.registry id conn }

/-- `binary.BigEndian.Uint32` over the first four bytes of a buffer. -/
def be32 (s : Bytes) : Nat :=
  s.getD 0 0 * 2 ^ 24 + s.getD 1 0 * 2 ^ 16 + s.getD 2 0 * 2 ^ 8 + s.getD 3 0

/-- The only failure `readServerMessage` can report: a short read from the
connection (`io.ReadFull` error).  The source has no malformed-frame or
protocol-error path. -/
inductive ReadErr where
  | eof
deriving DecidableEq

/-- src/unnamed/part_002: the decoded `ServerMessage`.  `type` is the raw
type code byte (`SMType` is a bare uint8 cast in the source). -/
structure ServerMessage where
  type : Nat
  requestID : Bytes
  senderID : Bytes
  payload : Bytes
deriving DecidableEq

/-- `io.ReadFull` of `n` bytes from a stream: the bytes read and the rest,
or a short-read failure. -/
def readN (n : Nat) (s : Bytes) : Option (Bytes × Bytes) :=
  if n ≤ s.length then some (s.take n, s.drop n) else none

/-- The client's payload-length computation (src/router/client.go:142):
`payloadLen := messageLen - 1 - RequestIDSize - PeerIDSize` on uint32
values. -/
def clientPayloadLenOf (messageLen : Nat) : Nat :=
  wsub32 messageLen (1 + RequestIDSize + PeerIDSize)

/-- Model of `Client.readServerMessage` (src/router/client.go:118-153): read
`MessageLen(4) + Type(1)`, then the 12-byte `RequestID`; for `Income` frames
additionally the 32-byte `SenderID` and then `messageLen - 1 - RequestIDSize -
PeerIDSize` payload bytes, the length computed by unchecked uint32
subtraction.  No bound against `MaxPacketSize` is checked anywhere. -/
def readServerMessage (s : Bytes) : Except ReadErr ServerMessage :=
  match readN 5 s with
  | none => .error .eof
  | some (hdr, s1) =>
    match readN RequestIDSize s1 with
    | none => .error .eof
    | some (reqID, s2) =>
      if hdr.getD 4 0 = Income then
        match readN PeerIDSize s2 with
        | none => .error .eof
        | some (sender, s3) =>
          if 0 < clientPayloadLenOf (be32 hdr) then
            match readN (clientPayloadLenOf (be32 hdr)) s3 with
            | none => .error .eof
            | some (payload, _) =>
              .ok { type := hdr.getD 4 0, requestID := reqID, senderID := sender,
                    payload := payload }
          else
            .ok { type := hdr.getD 4 0, requestID := reqID, senderID := sender,
                  payload := [] }
      else
        .ok { type := hdr.getD 4 0, requestID := reqID, senderID := [], payload := [] }

end Router

namespace P2P

/-- An encryption key (a Curve25519 32-byte value), modelled as a natural. -/
abbrev Key := Nat

/-- Modelled from the spec: the prime field size of the curve family used by
the authenticated-encryption primitive (`golang.org/x/crypto/curve25519` is
external to the repository). -/
def p25519 : Nat := 2 ^ 255 - 19

/-- Modelled from the spec: the base point of the Diffie-Hellman group.  The
group is modelled abstractly as modular exponentiation, which carries the
commutative scalar-action algebra that `nacl/box` key agreement relies on. -/
def basePoint : Nat := 9

/-- Modelled from the spec: `curve25519.ScalarBaseMult` — the public key of a
private scalar. -/
def scalarBaseMult (priv : Key) : Key := basePoint ^ priv % p25519

/-- Modelled from the spec: the Diffie-Hellman shared value of our private
scalar with a remote public key, as computed inside `nacl/box`. -/
def sharedKey (priv pub : Key) : Key := pub ^ priv % p25519

/-- Modelled from the spec: the keystream byte at position `i` of the stream
cipher under key `k` and a 24-byte nonce (`XSalsa20` is external to the
repository; any deterministic function of `(k, nonce, i)` models it). -/
def ksByte (k : Nat) (nonce : Bytes) (i : Nat) : Nat :=
  (k + nonce.foldl (fun a b => a * 256 + b) 0 + i) % 256

/-- XOR a byte string with the keystream starting at position `i`. -/
def xorKs (k : Nat) (nonce : Bytes) : Nat → Bytes → Bytes
  | _, [] => []
  | i, b :: bs => (b ^^^ ksByte k nonce i) :: xorKs k nonce (i + 1) bs

/-- Modelled from the spec: the 16-byte authenticator tag over a ciphertext
(`Poly1305` is external to the repository; any deterministic function of
`(k, nonce, ct)` models it). -/
def tagBytes (k : Nat) (nonce ct : Bytes) : Bytes :=
  (List.range 16).map fun i =>
    (k + nonce.foldl (fun a b => a * 256 + b) 0
      + ct.foldl (fun a b => a * 256 + b) 0 + i) % 256

/-- Modelled from the spec: `box.Seal(nil, m, nonce, peerPub, ourPriv)` —
authenticated encryption producing `ciphertext ‖ tag` of length `|m| + 16`. -/
def boxSeal (m nonce : Bytes) (peerPub ourPriv : Key) : Bytes :=
  xorKs (sharedKey ourPriv peerPub) nonce 0 m
    ++ tagBytes (sharedKey ourPriv peerPub) nonce
        (xorKs (sharedKey ourPriv peerPub) nonce 0 m)

/-- Modelled from the spec: `box.Open(nil, c, nonce, peerPub, ourPriv)` —
checks the authenticator and inverts the stream cipher, failing on inputs
shorter than the 16-byte tag or on a tag mismatch. -/
def boxOpen (c nonce : Bytes) (peerPub ourPriv : Key) : Option Bytes :=
  if c.length < 16 then none
  else if c.drop (c.length - 16)
      = tagBytes (sharedKey ourPriv peerPub) nonce (c.take (c.length - 16)) then
    some (xorKs (sharedKey ourPriv peerPub) nonce 0 (c.take (c.length - 16)))
  else none

/-- `EncryptMessage` (p2p crypto file in src/cmd/sendy/main.go:84-102): draw
a random 24-byte nonce (passed here as a parameter) and return
`nonce ‖ box.Seal(m, nonce, recipientPub, senderPriv)`. -/
def EncryptMessage (message : Bytes) (recipientPub : Key) (senderPriv : Key)
    (nonce : Bytes) : Bytes :=
  nonce ++ boxSeal message nonce recipientPub senderPriv

/-- `DecryptMessage` (p2p crypto file in src/cmd/sendy/main.go:105-127):
reject inputs shorter than the 24-byte nonce, then open the remainder under
the extracted nonce. -/
def DecryptMessage (encrypted : Bytes) (senderPub : Key) (recipientPriv : Key) :
    Option Bytes :=
  if encrypted.length < 24 then none
  else boxOpen (encrypted.drop 24) (encrypted.take 24) senderPub recipientPriv

/-- The ASCII bytes of the literal `"KEY_EXCHANGE_V1"`. -/
def keyExchangeMarker : Bytes :=
  [75, 69, 89, 95, 69, 88, 67, 72, 65, 78, 71, 69, 95, 86, 49]

/-- src/p2p/webrtc_integration_test.go:505-508: the envelope
`{sender_enc_pubkey, encrypted_data}`. -/
structure EncryptedMessage where
  senderEncPubKey : Key
  encryptedData : Bytes
deriving DecidableEq

/-- The error cases of `decryptMessageFromPeer`. -/
inductive DecErr where
  | keyChanged
  | shortNonKeyExchange
  | decryptFailed
deriving DecidableEq

/-- What one call of `decryptMessageFromPeer` produces: the returned value
(`none` payload means a KEY_EXCHANGE marker), the `peerEncKeys` map
afterwards, and whether a security alert was logged. -/
structure DecOutcome where
  result : Except DecErr (Option Bytes)
  keys : List (PeerID × Key)
  alert : Bool

/-- The tail of `decryptMessageFromPeer` after the TOFU key discipline
(src/p2p/webrtc_integration_test.go:717-757): the KEY_EXCHANGE marker check,
the minimum-ciphertext-length check, then `DecryptMessage` under the
envelope's sender key. -/
def decryptBody (keys : List (PeerID × Key)) (env : EncryptedMessage)
    (ourPriv : Key) : DecOutcome :=
  if env.encryptedData = keyExchangeMarker then
    { result := .ok none, keys := keys, alert := false }
  else if env.encryptedData.length < 40 then
    { result := .error .shortNonKeyExchange, keys := keys, alert := true }
  else
    match DecryptMessage env.encryptedData env.senderEncPubKey ourPriv with
    | some pt => { result := .ok (some pt), keys := keys, alert := false }
    | none => { result := .error .decryptFailed, keys := keys, alert := false }

/-- Model of `decryptMessageFromPeer`
(src/p2p/webrtc_integration_test.go:687-758).  The envelope has already been
JSON-decoded.  If a key is stored for the sender and differs from the
envelope's `sender_enc_pubkey`, the message is rejected with a security
alert and no state change; if no key is stored, the envelope's key is pinned
(trust on first use) before any further check. -/
def decryptMessageFromPeer (keys : List (PeerID × Key)) (ourPriv : Key)
    (peerID : PeerID) (env : EncryptedMessage) : DecOutcome :=
  match lookupA keys peerID with
  | some existing =>
    if existing = env.senderEncPubKey then decryptBody keys env ourPriv
    else { result := .error .keyChanged, keys := keys, alert := true }
  | none => decryptBody (storeA keys peerID env.senderEncPubKey) env ourPriv

/-- src/p2p/webrtc_integration_test.go:557: at most 10 offers per minute. -/
def maxOffersPerMinute : Nat := 10

/-- One minute, in the millisecond unit used for model timestamps. -/
def minuteMs : Nat := 60000

/-- src/p2p/webrtc_integration_test.go:550-554: the per-peer offer counter
with its last-reset timestamp (milliseconds). -/
structure OfferCounter where
  count : Nat
  lastReset : Nat
deriving DecidableEq

/-- The counter-reset step of `checkOfferRateLimit`
(src/p2p/webrtc_integration_test.go:1483-1486): reset the counter if
strictly more than a minute passed since the last reset.  Timestamps are
monotone in any execution, so truncated subtraction matches `time.Sub`. -/
def resetIfExpired (now : Nat) (c : OfferCounter) : OfferCounter :=
  if minuteMs < now - c.lastReset then OfferCounter.mk 0 now else c

/-- The admission step of `checkOfferRateLimit`
(src/p2p/webrtc_integration_test.go:1488-1498): accept (and count) the offer
iff the count is below the limit. -/
def admitOffer (c : OfferCounter) : Bool × OfferCounter :=
  if maxOffersPerMinute ≤ c.count then (false, c)
  else (true, OfferCounter.mk (c.count + 1) c.lastReset)

/-- Model of `checkOfferRateLimit`
(src/p2p/webrtc_integration_test.go:1469-1499) for one peer: the reset
check followed by the admission check. -/
def checkOfferRateLimit (now : Nat) (c : OfferCounter) : Bool × OfferCounter :=
  admitOffer (resetIfExpired now c)

/-- Run the rate limiter over a list of offer arrival times, returning the
final counter and the accept decision for each offer in order. -/
def runLimiter : List Nat → OfferCounter → OfferCounter × List Bool
  | [], c => (c, [])
  | t :: ts, c =>
    ((runLimiter ts (checkOfferRateLimit t c).2).1,
      (checkOfferRateLimit t c).1 :: (runLimiter ts (checkOfferRateLimit t c).2).2)

/-- The counter state a peer's first offer sees: `offerCount.LoadOrStore`
creates `{count: 0, lastReset: now}` at the time of that first offer. -/
def initialCounter (firstNow : Nat) : OfferCounter :=
  OfferCounter.mk 0 firstNow

/-- Number of accepted offers whose arrival time falls within the rolling
60-second window starting at `w`, over a run of the limiter started by the
first offer in the list. -/
def acceptedInWindow (times : List Nat) (w : Nat) : Nat :=
  ((times.zip (runLimiter times (initialCounter (times.headD 0))).2).filter
    fun p => decide (w ≤ p.1) && decide (p.1 ≤ w + minuteMs) && p.2).length

/-- Model of `compareIDs` (src/p2p/webrtc_integration_test.go:1456-1466):
lexicographic byte comparison of two equal-length ids, returning the sign of
the first difference. -/
def compareIDs : Bytes → Bytes → Int
  | [], _ => 0
  | _, [] => 0
  | a :: as, b :: bs =>
    if a < b then -1
    else if b < a then 1
    else compareIDs as bs

/-- What the offer branch of `handleIncoming` does when a `pending_offer`
slot for the sender already exists
(src/p2p/webrtc_integration_test.go:1407-1428): whether the pending slot is
deleted, whether the answer channel is closed, and whether the incoming
offer is processed (`handleIncomingOffer` is spawned). -/
structure TiebreakOutcome where
  pendingDeleted : Bool
  answerChanClosed : Bool
  incomingProcessed : Bool
deriving DecidableEq

/-- Model of the simultaneous-connect tiebreak in `handleIncoming`: the side
whose id is larger cancels its own attempt and accepts the incoming offer;
otherwise the incoming offer is ignored. -/
def handleSimultaneousOffer (ourID senderID : PeerID) : TiebreakOutcome :=
  if 0 < compareIDs ourID senderID then
    { pendingDeleted := true, answerChanClosed := true, incomingProcessed := true }
  else
    { pendingDeleted := false, answerChanClosed := false, incomingProcessed := false }

end P2P

/-! ## Helper lemmas -/

theorem lookupA_storeA_self {α : Type} (m : List (PeerID × α)) (k : PeerID)
    (v : α) : lookupA (storeA m k v) k = some v := by
  induction m with
  | nil => simp [storeA, lookupA]
  | cons h t ih =>
    obtain ⟨k', v'⟩ := h
    by_cases hk : k' = k
    · simp [storeA, hk, lookupA]
    · simp [storeA, hk, lookupA, ih]

theorem lookupA_storeA_ne {α : Type} (m : List (PeerID × α)) (k k' : PeerID)
    (v : α) (h : k ≠ k') : lookupA (storeA m k v) k' = lookupA m k' := by
  induction m with
  | nil => simp [storeA, lookupA, h]
  | cons hd t ih =>
    obtain ⟨k₀, v₀⟩ := hd
    by_cases hk : k₀ = k
    · subst hk
      simp [storeA, lookupA, h]
    · simp [storeA, hk, lookupA, ih]

theorem mem_keysOf_storeA {α : Type} (m : List (PeerID × α)) (k x : PeerID)
    (v : α) (hx : x ∈ keysOf (storeA m k v)) : x ∈ keysOf m ∨ x = k := by
  induction m with
  | nil => simpa [storeA, keysOf] using hx
  | cons hd t ih =>
    obtain ⟨k₀, v₀⟩ := hd
    by_cases hk : k₀ = k
    · subst hk
      simp only [storeA, if_true, eq_self_iff_true, keysOf, List.map_cons,
        List.mem_cons] at hx ⊢
      tauto
    · simp only [storeA, if_neg hk, keysOf, List.map_cons, List.mem_cons] at hx ⊢
      rcases hx with hx | hx
      · tauto
      · rcases ih hx with h | h <;> tauto

theorem nodup_keysOf_storeA {α : Type} (m : List (PeerID × α)) (k : PeerID)
    (v : α) (h : (keysOf m).Nodup) : (keysOf (storeA m k v)).Nodup := by
  induction m with
  | nil => simp [storeA, keysOf]
  | cons hd t ih =>
    obtain ⟨k₀, v₀⟩ := hd
    simp only [keysOf, List.map_cons, List.nodup_cons] at h
    by_cases hk : k₀ = k
    · subst hk
      simp only [storeA, if_true, eq_self_iff_true, keysOf, List.map_cons,
        List.nodup_cons]
      exact h
    · simp only [storeA, if_neg hk, keysOf, List.map_cons, List.nodup_cons]
      refine ⟨fun hmem => ?_, ih h.2⟩
      rcases mem_keysOf_storeA t k k₀ v hmem with hm | hm
      · exact h.1 hm
      · exact hk hm

theorem decryptBody_keys (keys : List (PeerID × P2P.Key))
    (env : P2P.EncryptedMessage) (ourPriv : P2P.Key) :
    (P2P.decryptBody keys env ourPriv).keys = keys := by
  unfold P2P.decryptBody
  split
  · rfl
  · split
    · rfl
    · split <;> rfl

/-! ## C4 — registration discipline of handleConn -/

/-- C4 (counterexample): with connection 1 registered under a PeerID and
still open, a second connection 2 that authenticates under the same PeerID
is stored over it, but the prior connection is NOT closed — refuting the
claim that the router "evicts the prior record and closes the old
connection". -/
theorem registerConn_does_not_close_old :
    let idA : PeerID := List.replicate 32 0
    let s := Router.RouterState.mk [(idA, 1)] []
    lookupA (Router.registerConn s idA 2).registry idA = some 2
    ∧ ¬ 1 ∈ (Router.registerConn s idA 2).closed := by
  decide

/-- C4 (amended): when a connection completes authentication under a PeerID,
`handleConn` overwrites the registry record for that PeerID with the new
connection (so a registry whose keys are distinct keeps at most one record
per PeerID, and other PeerIDs are untouched), but it closes no connection:
the set of closed connections is unchanged, so the prior connection under
that PeerID remains live. -/
theorem registerConn_overwrites_without_close (s : Router.RouterState)
    (id : PeerID) (conn : Nat) (hnd : (keysOf s.registry).Nodup) :
    lookupA (Router.registerConn s id conn).registry id = some conn
    ∧ (keysOf (Router.registerConn s id conn).registry).Nodup
    ∧ (Router.registerConn s id conn).closed = s.closed
    ∧ ∀ id' : PeerID, id ≠ id' →
        lookupA (Router.registerConn s id conn).registry id' =
          lookupA s.registry id' := by
  refine ⟨lookupA_storeA_self _ _ _, nodup_keysOf_storeA _ _ _ hnd, rfl, ?_⟩
  intro id' hne
  exact lookupA_storeA_ne _ _ _ _ hne

/-- C4 (witness): the amended theorem applied to a concrete registry holding
one other peer. -/
theorem registerConn_overwrites_without_close_witness :
    (keysOf (Router.RouterState.mk [(List.replicate 32 5, 9)] [3]).registry).Nodup
    ∧ (lookupA (Router.registerConn
          (Router.RouterState.mk [(List.replicate 32 5, 9)] [3])
          (List.replicate 32 0) 2).registry (List.replicate 32 0) = some 2
      ∧ (keysOf (Router.registerConn
          (Router.RouterState.mk [(List.replicate 32 5, 9)] [3])
          (List.replicate 32 0) 2).registry).Nodup
      ∧ (Router.registerConn
          (Router.RouterState.mk [(List.replicate 32 5, 9)] [3])
          (List.replicate 32 0) 2).closed =
          (Router.RouterState.mk [(List.replicate 32 5, 9)] [3]).closed
      ∧ ∀ id' : PeerID, List.replicate 32 0 ≠ id' →
          lookupA (Router.registerConn
            (Router.RouterState.mk [(List.replicate 32 5, 9)] [3])
            (List.replicate 32 0) 2).registry id' =
            lookupA (Router.RouterState.mk [(List.replicate 32 5, 9)] [3]).registry id') :=
  ⟨by decide,
    registerConn_overwrites_without_close
      (Router.RouterState.mk [(List.replicate 32 5, 9)] [3])
      (List.replicate 32 0) 2 (by decide)⟩

/-! ## C9 — unchecked 32-bit payload-length subtraction -/

/-- C9: payload length is computed by unchecked 32-bit subtraction.  For a
router frame with declared `MessageLen < 44` the computed payload length is
`MessageLen + 2^32 - 44` (near `2^32`) and `handleMessage` does not reject
the frame as malformed; for a client-side Income frame with
`MessageLen < 45` the computed payload length is `MessageLen + 2^32 - 45`,
and `readServerMessage` attempts the huge read (failing with a short-read
error on an exhausted stream) instead of rejecting the frame. -/
theorem payload_length_wraps (reg : List (PeerID × Nat)) (senderId : PeerID)
    (reqID : Bytes) (recipient : PeerID) (stream : Router.SenderStream)
    (iok pok : Bool) (b0 b1 b2 b3 : Nat) (reqIDc sender : Bytes)
    (hm : Router.be32 [b0, b1, b2, b3] < 44)
    (hrq : reqIDc.length = 12) (hsd : sender.length = 32) :
    Router.payloadLenOf (Router.be32 [b0, b1, b2, b3])
      = Router.be32 [b0, b1, b2, b3] + (2 ^ 32 - 44)
    ∧ 2 ^ 32 - 44 ≤ Router.payloadLenOf (Router.be32 [b0, b1, b2, b3])
    ∧ (Router.handleMessage reg senderId (Router.be32 [b0, b1, b2, b3]) reqID
        recipient stream iok pok).tooBig = false
    ∧ (∀ n, n < 45 → Router.clientPayloadLenOf n = n + (2 ^ 32 - 45))
    ∧ Router.readServerMessage (b0 :: b1 :: b2 :: b3 :: 3 :: (reqIDc ++ sender))
        = .error .eof := by
  have h1 : Router.payloadLenOf (Router.be32 [b0, b1, b2, b3])
      = Router.be32 [b0, b1, b2, b3] + (2 ^ 32 - 44) := by
    simp only [Router.payloadLenOf, wsub32, Router.RequestIDSize, Router.PeerIDSize]
    omega
  refine ⟨h1, by omega, ?_, ?_, ?_⟩
  · unfold Router.handleMessage
    split
    · exfalso
      rename_i hbig
      simp only [Router.MaxPacketSize] at hbig
      omega
    · split
      · split
        · split <;> rfl
        · rfl
      · split
        · split
          · split <;> rfl
          · rfl
        · rfl
  · intro n hn
    simp only [Router.clientPayloadLenOf, wsub32, Router.RequestIDSize,
      Router.PeerIDSize]
    omega
  · have hlen : (reqIDc ++ sender).length = 44 := by simp [hrq, hsd]
    have h5 : Router.readN 5
        (b0 :: b1 :: b2 :: b3 :: 3 :: (reqIDc ++ sender))
        = some ([b0, b1, b2, b3, 3], reqIDc ++ sender) := by
      simp [Router.readN, hlen]
    have h12 : Router.readN Router.RequestIDSize (reqIDc ++ sender)
        = some (reqIDc, sender) := by
      simp only [Router.readN, Router.RequestIDSize]
      rw [if_pos (by simp [hlen]), List.take_left' hrq, List.drop_left' hrq]
    have h32 : Router.readN Router.PeerIDSize sender = some (sender, []) := by
      simp only [Router.readN, Router.PeerIDSize]
      rw [if_pos (by simp [hsd]), ← hsd, List.take_length, List.drop_length]
    have hwrap : Router.clientPayloadLenOf (Router.be32 [b0, b1, b2, b3, 3])
        = Router.be32 [b0, b1, b2, b3] + (2 ^ 32 - 45) := by
      have hb : Router.be32 [b0, b1, b2, b3, 3] = Router.be32 [b0, b1, b2, b3] := rfl
      rw [hb]
      simp only [Router.clientPayloadLenOf, wsub32, Router.RequestIDSize,
        Router.PeerIDSize]
      omega
    unfold Router.readServerMessage
    rw [h5]
    simp only [h12, h32, hwrap]
    rw [if_pos (by simp [Router.Income, List.getD]), if_pos (by omega)]
    have hnone : Router.readN (Router.be32 [b0, b1, b2, b3] + (2 ^ 32 - 45))
        ([] : Bytes) = none := by
      simp only [Router.readN, List.length_nil]
      rw [if_neg (by omega)]
    rw [hnone]

/-- C9 (witness): the wrap theorem applied at `MessageLen = 0` with concrete
request-id and sender bytes. -/
theorem payload_length_wraps_witness :
    (Router.be32 [0, 0, 0, 0] < 44
      ∧ (List.replicate 12 7 : Bytes).length = 12
      ∧ (List.replicate 32 9 : Bytes).length = 32)
    ∧ Router.readServerMessage
        (0 :: 0 :: 0 :: 0 :: 3 :: (List.replicate 12 7 ++ List.replicate 32 9))
        = .error .eof :=
  ⟨⟨by decide, by decide, by decide⟩,
    (payload_length_wraps [] [] [] [] (Router.SenderStream.mk [] .eof) true true
      0 0 0 0 (List.replicate 12 7) (List.replicate 32 9)
      (by decide) (by decide) (by decide)).2.2.2.2⟩

/-! ## C8 — the client checks no payload-length bound -/

/-- Generic decode lemma for `readServerMessage` on an Income frame whose
payload bytes are available in full: the declared length is honoured with no
bound check. -/
theorem readServerMessage_income_ok (b0 b1 b2 b3 : Nat)
    (reqID sender rest : Bytes) (hrq : reqID.length = 12)
    (hsd : sender.length = 32)
    (hp : Router.clientPayloadLenOf (Router.be32 [b0, b1, b2, b3]) ≤ rest.length) :
    Router.readServerMessage (b0 :: b1 :: b2 :: b3 :: 3 :: (reqID ++ (sender ++ rest)))
      = .ok { type := 3, requestID := reqID, senderID := sender,
              payload := rest.take (Router.clientPayloadLenOf
                (Router.be32 [b0, b1, b2, b3])) } := by
  have h5 : Router.readN 5 (b0 :: b1 :: b2 :: b3 :: 3 :: (reqID ++ (sender ++ rest)))
      = some ([b0, b1, b2, b3, 3], reqID ++ (sender ++ rest)) := by
    simp [Router.readN]
  have h12 : Router.readN Router.RequestIDSize (reqID ++ (sender ++ rest))
      = some (reqID, sender ++ rest) := by
    simp only [Router.readN, Router.RequestIDSize]
    rw [if_pos (by simp [hrq]), List.take_left' hrq, List.drop_left' hrq]
  have h32 : Router.readN Router.PeerIDSize (sender ++ rest)
      = some (sender, rest) := by
    simp only [Router.readN, Router.PeerIDSize]
    rw [if_pos (by simp [hsd]), List.take_left' hsd, List.drop_left' hsd]
  have hbe : Router.be32 [b0, b1, b2, b3, 3] = Router.be32 [b0, b1, b2, b3] := rfl
  have hty : ([b0, b1, b2, b3, 3] : Bytes).getD 4 0 = 3 := rfl
  unfold Router.readServerMessage
  rw [h5]
  simp only [h12, h32, hbe, hty]
  rw [if_pos (by simp [Router.Income])]
  by_cases hpos : 0 < Router.clientPayloadLenOf (Router.be32 [b0, b1, b2, b3])
  · rw [if_pos hpos]
    have hrd : Router.readN (Router.clientPayloadLenOf (Router.be32 [b0, b1, b2, b3]))
        rest = some (rest.take (Router.clientPayloadLenOf
          (Router.be32 [b0, b1, b2, b3])), rest.drop (Router.clientPayloadLenOf
          (Router.be32 [b0, b1, b2, b3]))) := by
      simp only [Router.readN]
      rw [if_pos hp]
    rw [hrd]
  · rw [if_neg hpos]
    have h0 : Router.clientPayloadLenOf (Router.be32 [b0, b1, b2, b3]) = 0 := by
      omega
    rw [h0, List.take_zero]

/-- C8 (counterexample): an Income frame declaring `MessageLen = 40000`, so
payload length `39955 > MaxPacketSize - 45 = 32723`, is decoded by
`readServerMessage` into a successful `ServerMessage` whose 39955-byte
payload is read and returned — refuting the claim that the client enforces
`payload_len ≤ MaxPacketSize - overhead` and returns a Protocol error on
violation (the source has no such check and no Protocol-error path). -/
theorem readServerMessage_counterexample :
    Router.MaxPacketSize - (1 + Router.RequestIDSize + Router.PeerIDSize) < 39955
    ∧ Router.readServerMessage
        (0 :: 0 :: 156 :: 64 :: 3 ::
          (List.replicate 12 0 ++ (List.replicate 32 1 ++ List.replicate 39955 7)))
      = .ok { type := 3, requestID := List.replicate 12 0,
              senderID := List.replicate 32 1,
              payload := List.replicate 39955 7 } := by
  refine ⟨by decide, ?_⟩
  have h := readServerMessage_income_ok 0 0 156 64 (List.replicate 12 0)
    (List.replicate 32 1) (List.replicate 39955 7)
    (by rw [List.length_replicate]) (by rw [List.length_replicate])
    (by rw [List.length_replicate]; decide)
  rw [h]
  have hpl : Router.clientPayloadLenOf (Router.be32 [0, 0, 156, 64]) = 39955 := by
    decide
  rw [hpl, List.take_replicate, Nat.min_self]

/-- C8 (amended): `readServerMessage` performs no bound check on the
declared payload length: for an Income frame whose header declares
`MessageLen` with any value, it computes `payloadLen = MessageLen - 45` by
unchecked 32-bit subtraction and, when that many bytes are available, reads
them and returns a successful `ServerMessage` — regardless of
`MaxPacketSize`; its only failure mode is a short read, there is no
Protocol error. -/
theorem readServerMessage_reads_unbounded (b0 b1 b2 b3 : Nat)
    (reqID sender rest : Bytes) (hrq : reqID.length = 12)
    (hsd : sender.length = 32)
    (hp : Router.clientPayloadLenOf (Router.be32 [b0, b1, b2, b3]) ≤ rest.length) :
    Router.readServerMessage (b0 :: b1 :: b2 :: b3 :: 3 :: (reqID ++ (sender ++ rest)))
      = .ok { type := 3, requestID := reqID, senderID := sender,
              payload := rest.take (Router.clientPayloadLenOf
                (Router.be32 [b0, b1, b2, b3])) } :=
  readServerMessage_income_ok b0 b1 b2 b3 reqID sender rest hrq hsd hp

/-- C8 (witness): the amended theorem applied to a small concrete Income
frame with `MessageLen = 50`, payload length 5. -/
theorem readServerMessage_reads_unbounded_witness :
    ((List.replicate 12 0 : Bytes).length = 12
      ∧ (List.replicate 32 1 : Bytes).length = 32
      ∧ Router.clientPayloadLenOf (Router.be32 [0, 0, 0, 50])
          ≤ ([9, 8, 7, 6, 5] : Bytes).length)
    ∧ Router.readServerMessage
        (0 :: 0 :: 0 :: 50 :: 3 ::
          (List.replicate 12 0 ++ (List.replicate 32 1 ++ [9, 8, 7, 6, 5])))
      = .ok { type := 3, requestID := List.replicate 12 0,
              senderID := List.replicate 32 1,
              payload := ([9, 8, 7, 6, 5] : Bytes).take
                (Router.clientPayloadLenOf (Router.be32 [0, 0, 0, 50])) } :=
  ⟨⟨by decide, by decide, by decide⟩,
    readServerMessage_reads_unbounded 0 0 0 50 (List.replicate 12 0)
      (List.replicate 32 1) [9, 8, 7, 6, 5] (by decide) (by decide) (by decide)⟩

/-! ## C1 — forwarding a well-formed frame -/

/-- C1: for a well-formed PeerMessage read in full from an authenticated
sender (declared `MessageLen = 44 + |payload|` within bound, payload fully
available) with all forwarding writes succeeding: if the recipient is in the
registry, the router writes exactly one Income frame to it carrying the
frame's RequestID, the sender's authenticated PeerID and a byte-equal
payload (and acknowledges the sender with Success); if the recipient is
absent, the router drains the payload, produces no Income anywhere and
replies NotFound to the sender with the same RequestID. -/
theorem router_forwards_income_or_notfound (reg : List (PeerID × Nat))
    (senderId : PeerID) (payload reqID : Bytes) (recipient : PeerID)
    (endK : Router.StreamEnd)
    (hlen : 44 + payload.length ≤ Router.MaxPacketSize) :
    (∀ v, lookupA reg recipient = some v →
      Router.handleMessage reg senderId (44 + payload.length) reqID recipient
        (Router.SenderStream.mk payload endK) true true
        = { tooBig := false, drained := payload.length,
            incomeHeader := some (45 + payload.length, reqID, senderId),
            incomeBody := payload, responses := [(Router.Success, reqID)],
            connErr := false })
    ∧ (lookupA reg recipient = none →
      Router.handleMessage reg senderId (44 + payload.length) reqID recipient
        (Router.SenderStream.mk payload endK) true true
        = { tooBig := false, drained := payload.length, incomeHeader := none,
            incomeBody := [], responses := [(Router.NotFound, reqID)],
            connErr := false }) := by
  simp only [Router.MaxPacketSize] at hlen
  have hpl : Router.payloadLenOf (44 + payload.length) = payload.length := by
    simp only [Router.payloadLenOf, wsub32, Router.RequestIDSize, Router.PeerIDSize]
    omega
  have hdl : Router.incomeDeclaredLen payload.length = 45 + payload.length := by
    simp only [Router.incomeDeclaredLen, Router.RequestIDSize, Router.PeerIDSize]
    omega
  constructor
  · intro v hv
    unfold Router.handleMessage
    rw [if_neg (by simp only [Router.MaxPacketSize]; omega), hv]
    simp only [hpl, hdl]
    by_cases hp : 0 < payload.length
    · rw [if_pos trivial, if_pos hp, if_neg (by simp)]
      simp [Nat.min_self]
    · have h0 : payload.length = 0 := by omega
      have hemp : payload = [] := List.eq_nil_of_length_eq_zero h0
      subst hemp
      rw [if_pos trivial, if_neg (by simp)]
      rfl
  · intro hv
    unfold Router.handleMessage
    rw [if_neg (by simp only [Router.MaxPacketSize]; omega), hv]
    simp only [hpl]
    by_cases hp : 0 < payload.length
    · rw [if_pos hp, if_neg (by simp)]
      simp [Nat.min_self]
    · have h0 : payload.length = 0 := by omega
      have hemp : payload = [] := List.eq_nil_of_length_eq_zero h0
      subst hemp
      rfl

/-- C1 (witness): forwarding a 3-byte payload to a registered recipient, and
the NotFound path for an unregistered one, at concrete inputs. -/
theorem router_forwards_income_or_notfound_witness :
    (44 + ([10, 20, 30] : Bytes).length ≤ Router.MaxPacketSize)
    ∧ ((∀ v, lookupA [(List.replicate 32 1, 7)] (List.replicate 32 1) = some v →
        Router.handleMessage [(List.replicate 32 1, 7)] (List.replicate 32 2)
          (44 + ([10, 20, 30] : Bytes).length) (List.replicate 12 0)
          (List.replicate 32 1)
          (Router.SenderStream.mk [10, 20, 30] Router.StreamEnd.eof) true true
          = { tooBig := false, drained := ([10, 20, 30] : Bytes).length,
              incomeHeader := some (45 + ([10, 20, 30] : Bytes).length,
                List.replicate 12 0, List.replicate 32 2),
              incomeBody := [10, 20, 30],
              responses := [(Router.Success, List.replicate 12 0)],
              connErr := false })
      ∧ (lookupA [(List.replicate 32 1, 7)] (List.replicate 32 1) = none →
        Router.handleMessage [(List.replicate 32 1, 7)] (List.replicate 32 2)
          (44 + ([10, 20, 30] : Bytes).length) (List.replicate 12 0)
          (List.replicate 32 1)
          (Router.SenderStream.mk [10, 20, 30] Router.StreamEnd.eof) true true
          = { tooBig := false, drained := ([10, 20, 30] : Bytes).length,
              incomeHeader := none, incomeBody := [],
              responses := [(Router.NotFound, List.replicate 12 0)],
              connErr := false })) :=
  ⟨by decide,
    router_forwards_income_or_notfound [(List.replicate 32 1, 7)]
      (List.replicate 32 2) [10, 20, 30] (List.replicate 12 0)
      (List.replicate 32 1) Router.StreamEnd.eof (by decide)⟩

/-! ## C7 — per-frame response discipline -/

/-- C7 (counterexample): a frame whose 48-byte header is read and whose
declared length 54 is within `MaxPacketSize`, addressed to an absent
recipient, with only 3 of its 10 payload bytes available before a
connection read error: `handleMessage` returns without writing any response
frame — refuting the claim that exactly one response is always written. -/
theorem handleMessage_no_response_counterexample :
    54 ≤ Router.MaxPacketSize
    ∧ ¬ ((Router.handleMessage [] (List.replicate 32 4) 54 (List.replicate 12 0)
        (List.replicate 32 0)
        (Router.SenderStream.mk [1, 2, 3] Router.StreamEnd.rerr)
        true true).responses.length = 1) := by
  constructor
  · decide
  · decide

/-- C7 (amended): for every frame whose header the router reads and whose
declared length is within `MaxPacketSize`, `handleMessage` writes at most one
response frame back to the sender, always carrying the incoming frame's
RequestID and of type Success, Error or NotFound; it writes exactly one
except when the recipient is absent from the registry and a connection read
error occurs while draining a nonzero payload, in which case no response is
written. -/
theorem handleMessage_single_response (reg : List (PeerID × Nat))
    (senderId : PeerID) (mlen : Nat) (reqID : Bytes) (recipient : PeerID)
    (stream : Router.SenderStream) (iok pok : Bool)
    (hlen : mlen ≤ Router.MaxPacketSize) :
    (∀ p ∈ (Router.handleMessage reg senderId mlen reqID recipient stream
        iok pok).responses,
      p.2 = reqID ∧ (p.1 = Router.Success ∨ p.1 = Router.Error
        ∨ p.1 = Router.NotFound))
    ∧ ((Router.handleMessage reg senderId mlen reqID recipient stream
          iok pok).responses.length = 1
        ∨ ((Router.handleMessage reg senderId mlen reqID recipient stream
              iok pok).responses = []
            ∧ lookupA reg recipient = none
            ∧ stream.bytes.length < Router.payloadLenOf mlen
            ∧ stream.endK = Router.StreamEnd.rerr)) := by
  have hcases : (Router.handleMessage reg senderId mlen reqID recipient stream
        iok pok).responses = [(Router.Success, reqID)]
      ∨ (Router.handleMessage reg senderId mlen reqID recipient stream
          iok pok).responses = [(Router.Error, reqID)]
      ∨ (Router.handleMessage reg senderId mlen reqID recipient stream
          iok pok).responses = [(Router.NotFound, reqID)]
      ∨ ((Router.handleMessage reg senderId mlen reqID recipient stream
            iok pok).responses = []
          ∧ lookupA reg recipient = none
          ∧ stream.bytes.length < Router.payloadLenOf mlen
          ∧ stream.endK = Router.StreamEnd.rerr) := by
    unfold Router.handleMessage
    rw [if_neg (by simp only [Router.MaxPacketSize] at hlen ⊢; omega)]
    cases hv : lookupA reg recipient
    · simp only []
      by_cases hp : 0 < Router.payloadLenOf mlen
      · rw [if_pos hp]
        by_cases hre : stream.bytes.length < Router.payloadLenOf mlen
            ∧ stream.endK = Router.StreamEnd.rerr
        · rw [if_pos hre]
          exact Or.inr (Or.inr (Or.inr ⟨rfl, by simp, hre.1, hre.2⟩))
        · rw [if_neg hre]
          exact Or.inr (Or.inr (Or.inl rfl))
      · rw [if_neg hp]
        exact Or.inr (Or.inr (Or.inl rfl))
    · simp only []
      by_cases hio : iok = true
      · rw [if_pos hio]
        by_cases hp : 0 < Router.payloadLenOf mlen
        · rw [if_pos hp]
          by_cases hre : (stream.bytes.length < Router.payloadLenOf mlen
              ∧ stream.endK = Router.StreamEnd.rerr) ∨ pok = false
          · rw [if_pos hre]
            exact Or.inr (Or.inl rfl)
          · rw [if_neg hre]
            exact Or.inl rfl
        · rw [if_neg hp]
          exact Or.inl rfl
      · rw [if_neg hio]
        exact Or.inr (Or.inl rfl)
  rcases hcases with h | h | h | h
  · refine ⟨?_, Or.inl (by rw [h]; rfl)⟩
    intro p hp
    rw [h] at hp
    simp only [List.mem_singleton] at hp
    subst hp
    exact ⟨rfl, Or.inl rfl⟩
  · refine ⟨?_, Or.inl (by rw [h]; rfl)⟩
    intro p hp
    rw [h] at hp
    simp only [List.mem_singleton] at hp
    subst hp
    exact ⟨rfl, Or.inr (Or.inl rfl)⟩
  · refine ⟨?_, Or.inl (by rw [h]; rfl)⟩
    intro p hp
    rw [h] at hp
    simp only [List.mem_singleton] at hp
    subst hp
    exact ⟨rfl, Or.inr (Or.inr rfl)⟩
  · refine ⟨?_, Or.inr h⟩
    intro p hp
    rw [h.1] at hp
    simp at hp

/-- C7 (witness): the amended theorem at a concrete frame addressed to a
registered recipient. -/
theorem handleMessage_single_response_witness :
    (54 ≤ Router.MaxPacketSize)
    ∧ ((∀ p ∈ (Router.handleMessage [(List.replicate 32 0, 7)]
          (List.replicate 32 4) 54 (List.replicate 12 0) (List.replicate 32 0)
          (Router.SenderStream.mk [1, 2, 3, 4, 5, 6, 7, 8, 9, 10]
            Router.StreamEnd.eof) true true).responses,
        p.2 = List.replicate 12 0 ∧ (p.1 = Router.Success ∨ p.1 = Router.Error
          ∨ p.1 = Router.NotFound))
      ∧ ((Router.handleMessage [(List.replicate 32 0, 7)]
            (List.replicate 32 4) 54 (List.replicate 12 0) (List.replicate 32 0)
            (Router.SenderStream.mk [1, 2, 3, 4, 5, 6, 7, 8, 9, 10]
              Router.StreamEnd.eof) true true).responses.length = 1
          ∨ ((Router.handleMessage [(List.replicate 32 0, 7)]
                (List.replicate 32 4) 54 (List.replicate 12 0) (List.replicate 32 0)
                (Router.SenderStream.mk [1, 2, 3, 4, 5, 6, 7, 8, 9, 10]
                  Router.StreamEnd.eof) true true).responses = []
              ∧ lookupA [(List.replicate 32 0, 7)] (List.replicate 32 0) = none
              ∧ ([1, 2, 3, 4, 5, 6, 7, 8, 9, 10] : Bytes).length
                  < Router.payloadLenOf 54
              ∧ Router.StreamEnd.eof = Router.StreamEnd.rerr))) :=
  ⟨by decide,
    handleMessage_single_response [(List.replicate 32 0, 7)]
      (List.replicate 32 4) 54 (List.replicate 12 0) (List.replicate 32 0)
      (Router.SenderStream.mk [1, 2, 3, 4, 5, 6, 7, 8, 9, 10]
        Router.StreamEnd.eof) true true (by decide)⟩

/-! ## C2 — encryption-key pinning (TOFU immutability) -/

/-- C2: once an encryption key is stored for a peer it is never replaced by
a different key.  If an inbound envelope from `P` carries a
`sender_enc_pub` different from the stored key, `decryptMessageFromPeer`
returns the key-changed error, records a security alert and leaves the key
map unchanged; and no call — for any peer and any envelope — changes the
stored key of `P`. -/
theorem peer_key_pinned (keys : List (PeerID × P2P.Key)) (ourPriv : P2P.Key)
    (P : PeerID) (k : P2P.Key) (hstored : lookupA keys P = some k) :
    (∀ env : P2P.EncryptedMessage, env.senderEncPubKey ≠ k →
      (P2P.decryptMessageFromPeer keys ourPriv P env).result
          = .error .keyChanged
      ∧ (P2P.decryptMessageFromPeer keys ourPriv P env).keys = keys
      ∧ (P2P.decryptMessageFromPeer keys ourPriv P env).alert = true)
    ∧ (∀ (Q : PeerID) (env : P2P.EncryptedMessage),
        lookupA (P2P.decryptMessageFromPeer keys ourPriv Q env).keys P
          = some k) := by
  constructor
  · intro env hne
    unfold P2P.decryptMessageFromPeer
    rw [hstored]
    simp only []
    rw [if_neg fun h => hne h.symm]
    exact ⟨rfl, rfl, rfl⟩
  · intro Q env
    unfold P2P.decryptMessageFromPeer
    cases hq : lookupA keys Q
    · have hQP : Q ≠ P := by
        intro he
        rw [he, hstored] at hq
        exact Option.noConfusion hq
      simp only []
      rw [decryptBody_keys, lookupA_storeA_ne keys Q P env.senderEncPubKey hQP]
      exact hstored
    · simp only []
      by_cases he : ‹P2P.Key› = env.senderEncPubKey
      all_goals rename_i e
      · rw [if_pos he, decryptBody_keys]
        exact hstored
      · rw [if_neg he]
        exact hstored

/-- C2 (witness): the pinning theorem at a concrete key map holding key 5
for one peer. -/
theorem peer_key_pinned_witness :
    (lookupA [(List.replicate 32 0, 5)] (List.replicate 32 0) = some 5)
    ∧ ((∀ env : P2P.EncryptedMessage, env.senderEncPubKey ≠ 5 →
        (P2P.decryptMessageFromPeer [(List.replicate 32 0, 5)] 1
            (List.replicate 32 0) env).result = .error .keyChanged
        ∧ (P2P.decryptMessageFromPeer [(List.replicate 32 0, 5)] 1
            (List.replicate 32 0) env).keys = [(List.replicate 32 0, 5)]
        ∧ (P2P.decryptMessageFromPeer [(List.replicate 32 0, 5)] 1
            (List.replicate 32 0) env).alert = true)
      ∧ (∀ (Q : PeerID) (env : P2P.EncryptedMessage),
          lookupA (P2P.decryptMessageFromPeer [(List.replicate 32 0, 5)] 1
            Q env).keys (List.replicate 32 0) = some 5)) :=
  ⟨by decide,
    peer_key_pinned [(List.replicate 32 0, 5)] 1 (List.replicate 32 0) 5
      (by decide)⟩

/-! ## C10 — TOFU pins the key before the validity checks -/

/-- C10: when no key is stored for a sender, `decryptMessageFromPeer` pins
the envelope's `sender_enc_pub` before the ciphertext-length check and
before authenticated decryption: on any non-KEY_EXCHANGE envelope that then
fails (ciphertext shorter than 40 bytes, or decryption failure), the call
returns an error yet the key remains pinned. -/
theorem tofu_pins_key_before_validation (keys : List (PeerID × P2P.Key))
    (ourPriv : P2P.Key) (P : PeerID) (env : P2P.EncryptedMessage)
    (hnone : lookupA keys P = none)
    (hmark : env.encryptedData ≠ P2P.keyExchangeMarker)
    (hfail : env.encryptedData.length < 40
      ∨ P2P.DecryptMessage env.encryptedData env.senderEncPubKey ourPriv = none) :
    (∃ e, (P2P.decryptMessageFromPeer keys ourPriv P env).result = .error e)
    ∧ lookupA (P2P.decryptMessageFromPeer keys ourPriv P env).keys P
        = some env.senderEncPubKey := by
  unfold P2P.decryptMessageFromPeer
  rw [hnone]
  simp only []
  constructor
  · unfold P2P.decryptBody
    rw [if_neg hmark]
    by_cases hlt : env.encryptedData.length < 40
    · rw [if_pos hlt]
      exact ⟨.shortNonKeyExchange, rfl⟩
    · rw [if_neg hlt]
      rcases hfail with hfail | hfail
      · exact absurd hfail hlt
      · rw [hfail]
        exact ⟨.decryptFailed, rfl⟩
  · rw [decryptBody_keys]
    exact lookupA_storeA_self keys P env.senderEncPubKey

/-- C10 (witness): a first-contact envelope with a 3-byte ciphertext (not
the KEY_EXCHANGE marker, shorter than 40 bytes): the call errors but the
envelope's key 5 is pinned. -/
theorem tofu_pins_key_before_validation_witness :
    (lookupA ([] : List (PeerID × P2P.Key)) (List.replicate 32 0) = none
      ∧ (P2P.EncryptedMessage.mk 5 [0, 1, 2]).encryptedData
          ≠ P2P.keyExchangeMarker
      ∧ ((P2P.EncryptedMessage.mk 5 [0, 1, 2]).encryptedData.length < 40
        ∨ P2P.DecryptMessage (P2P.EncryptedMessage.mk 5 [0, 1, 2]).encryptedData
            (P2P.EncryptedMessage.mk 5 [0, 1, 2]).senderEncPubKey 1 = none))
    ∧ ((∃ e, (P2P.decryptMessageFromPeer [] 1 (List.replicate 32 0)
          (P2P.EncryptedMessage.mk 5 [0, 1, 2])).result = .error e)
      ∧ lookupA (P2P.decryptMessageFromPeer [] 1 (List.replicate 32 0)
          (P2P.EncryptedMessage.mk 5 [0, 1, 2])).keys (List.replicate 32 0)
          = some 5) :=
  ⟨⟨by decide, by decide, Or.inl (by decide)⟩,
    tofu_pins_key_before_validation [] 1 (List.replicate 32 0)
      (P2P.EncryptedMessage.mk 5 [0, 1, 2]) (by decide) (by decide)
      (Or.inl (by decide))⟩

/-! ## C5 — offer rate limiting -/

theorem runLimiter_cons (t : Nat) (ts : List Nat) (c : P2P.OfferCounter) :
    P2P.runLimiter (t :: ts) c
      = ((P2P.runLimiter ts (P2P.checkOfferRateLimit t c).2).1,
         (P2P.checkOfferRateLimit t c).1
           :: (P2P.runLimiter ts (P2P.checkOfferRateLimit t c).2).2) := rfl

/-- C5 (counterexample): the source limiter is a fixed-window counter
(reset when more than 60 s passed since the last reset), not a rolling
window.  With one offer at t=0 ms, nine at t=59000 ms and ten at
t=60001 ms, all twenty are accepted, and nineteen accepted offers fall in
the rolling 60-second window starting at t=59000 ms — refuting the claim
that at most `MaxOffersPerMinute` (10) offers are accepted within any
rolling 60-second window. -/
theorem rate_limit_rolling_counterexample :
    P2P.maxOffersPerMinute
      < P2P.acceptedInWindow
          ([0] ++ List.replicate 9 59000 ++ List.replicate 10 60001) 59000 := by
  decide

/-- C5 (amended): the offer limiter is a fixed-window counter.  For every
peer, starting from any counter state with count within the limit, as long
as no offer arrives more than 60 seconds after the counter's last reset
(so the counter never resets), the number of accepted offers plus the
starting count never exceeds `MaxOffersPerMinute` (10); and an offer
rejected by the limiter leaves the counter completely unchanged (silent
drop, no state change).  Across resets, up to `2 × MaxOffersPerMinute`
offers can fall in one rolling 60-second window. -/
theorem rate_limit_fixed_window (times : List Nat) (c : P2P.OfferCounter)
    (hc : c.count ≤ P2P.maxOffersPerMinute)
    (hw : ∀ t ∈ times, t - c.lastReset ≤ P2P.minuteMs) :
    ((P2P.runLimiter times c).2.countP id) + c.count ≤ P2P.maxOffersPerMinute
    ∧ (∀ (now : Nat) (d : P2P.OfferCounter),
        (P2P.checkOfferRateLimit now d).1 = false →
        (P2P.checkOfferRateLimit now d).2 = d) := by
  constructor
  · induction times generalizing c with
    | nil => simpa [P2P.runLimiter] using hc
    | cons t ts ih =>
      have hnr : P2P.resetIfExpired t c = c := by
        unfold P2P.resetIfExpired
        rw [if_neg]
        have := hw t (by simp)
        omega
      have hchk : P2P.checkOfferRateLimit t c = P2P.admitOffer c := by
        unfold P2P.checkOfferRateLimit
        rw [hnr]
      rw [runLimiter_cons, hchk]
      by_cases hcnt : P2P.maxOffersPerMinute ≤ c.count
      · have ha : P2P.admitOffer c = (false, c) := by
          unfold P2P.admitOffer
          rw [if_pos hcnt]
        rw [ha]
        simp only [List.countP_cons, id_eq, Bool.false_eq_true, if_false,
          Nat.add_zero]
        exact ih c hc fun t' ht' => hw t' (by simp [ht'])
      · have ha : P2P.admitOffer c
            = (true, P2P.OfferCounter.mk (c.count + 1) c.lastReset) := by
          unfold P2P.admitOffer
          rw [if_neg hcnt]
        rw [ha]
        simp only [List.countP_cons, id_eq, if_true]
        have hrec := ih (P2P.OfferCounter.mk (c.count + 1) c.lastReset)
          (by simp only [P2P.maxOffersPerMinute] at hcnt ⊢; omega)
          (fun t' ht' => hw t' (by simp [ht']))
        simp only at hrec
        omega
  · intro now d hrej
    unfold P2P.checkOfferRateLimit at hrej ⊢
    by_cases hre : P2P.minuteMs < now - d.lastReset
    · have hr : P2P.resetIfExpired now d = P2P.OfferCounter.mk 0 now := by
        unfold P2P.resetIfExpired
        rw [if_pos hre]
      rw [hr] at hrej
      unfold P2P.admitOffer at hrej
      rw [if_neg (by simp [P2P.maxOffersPerMinute])] at hrej
      exact absurd hrej (by simp)
    · have hnr : P2P.resetIfExpired now d = d := by
        unfold P2P.resetIfExpired
        rw [if_neg hre]
      rw [hnr] at hrej ⊢
      unfold P2P.admitOffer at hrej ⊢
      by_cases hcnt : P2P.maxOffersPerMinute ≤ d.count
      · rw [if_pos hcnt]
      · rw [if_neg hcnt] at hrej
        exact absurd hrej (by simp)

/-- C5 (witness): twelve offers arriving at t=5 ms from a fresh counter:
at most ten are accepted. -/
theorem rate_limit_fixed_window_witness :
    ((P2P.OfferCounter.mk 0 0).count ≤ P2P.maxOffersPerMinute
      ∧ (∀ t ∈ List.replicate 12 5,
          t - (P2P.OfferCounter.mk 0 0).lastReset ≤ P2P.minuteMs))
    ∧ (((P2P.runLimiter (List.replicate 12 5)
          (P2P.OfferCounter.mk 0 0)).2.countP id)
        + (P2P.OfferCounter.mk 0 0).count ≤ P2P.maxOffersPerMinute
      ∧ (∀ (now : Nat) (d : P2P.OfferCounter),
          (P2P.checkOfferRateLimit now d).1 = false →
          (P2P.checkOfferRateLimit now d).2 = d)) :=
  ⟨⟨by decide, by decide⟩,
    rate_limit_fixed_window (List.replicate 12 5) (P2P.OfferCounter.mk 0 0)
      (by decide) (by decide)⟩

/-! ## C6 — simultaneous-connect tiebreak -/

theorem compareIDs_swap (a b : Bytes) (h : a.length = b.length) :
    P2P.compareIDs b a = -P2P.compareIDs a b := by
  induction a generalizing b with
  | nil =>
    cases b
    · simp [P2P.compareIDs]
    · simp at h
  | cons x xs ih =>
    cases b with
    | nil => simp at h
    | cons y ys =>
      simp only [List.length_cons, Nat.add_right_cancel_iff] at h
      rcases Nat.lt_trichotomy x y with hxy | hxy | hxy
      · have hyx : ¬ y < x := by omega
        simp [P2P.compareIDs, hxy, hyx]
      · subst hxy
        simp [P2P.compareIDs, Nat.lt_irrefl, ih ys h]
      · have hnxy : ¬ x < y := by omega
        simp [P2P.compareIDs, hxy, hnxy]

theorem compareIDs_ne_zero (a b : Bytes) (h : a.length = b.length)
    (hne : a ≠ b) : P2P.compareIDs a b ≠ 0 := by
  induction a generalizing b with
  | nil =>
    cases b
    · exact absurd rfl hne
    · simp at h
  | cons x xs ih =>
    cases b with
    | nil => simp at h
    | cons y ys =>
      simp only [List.length_cons, Nat.add_right_cancel_iff] at h
      rcases Nat.lt_trichotomy x y with hxy | hxy | hxy
      · have hyx : ¬ y < x := by omega
        simp [P2P.compareIDs, hxy, hyx]
      · subst hxy
        simp only [P2P.compareIDs, Nat.lt_irrefl, if_false]
        exact ih ys h fun he => hne (by rw [he])
      · have hnxy : ¬ x < y := by omega
        simp [P2P.compareIDs, hxy, hnxy]

/-- C6: when an offer arrives from a sender for which a `pending_offer`
slot exists, the side whose PeerID is lexicographically larger deletes the
pending slot, closes the answer channel and processes the incoming offer,
while the other side does none of this and ignores the incoming offer; for
any two distinct 32-byte PeerIDs the comparison designates exactly one of
the two sides as the accepter. -/
theorem tiebreak_exactly_one_accepter (a b : PeerID) (ha : a.length = 32)
    (hb : b.length = 32) (hne : a ≠ b) :
    (0 < P2P.compareIDs a b
      ∧ P2P.handleSimultaneousOffer a b
          = P2P.TiebreakOutcome.mk true true true
      ∧ P2P.handleSimultaneousOffer b a
          = P2P.TiebreakOutcome.mk false false false)
    ∨ (0 < P2P.compareIDs b a
      ∧ P2P.handleSimultaneousOffer b a
          = P2P.TiebreakOutcome.mk true true true
      ∧ P2P.handleSimultaneousOffer a b
          = P2P.TiebreakOutcome.mk false false false) := by
  have hlen : a.length = b.length := by rw [ha, hb]
  have hswap := compareIDs_swap a b hlen
  have hnz := compareIDs_ne_zero a b hlen hne
  by_cases hpos : 0 < P2P.compareIDs a b
  · refine Or.inl ⟨hpos, ?_, ?_⟩
    · unfold P2P.handleSimultaneousOffer
      rw [if_pos hpos]
    · unfold P2P.handleSimultaneousOffer
      rw [if_neg (by omega)]
  · refine Or.inr ⟨by omega, ?_, ?_⟩
    · unfold P2P.handleSimultaneousOffer
      rw [if_pos (by omega)]
    · unfold P2P.handleSimultaneousOffer
      rw [if_neg hpos]

/-- C6 (witness): the tiebreak theorem at the concrete distinct ids
`1 :: 0^31` and `0^32`. -/
theorem tiebreak_exactly_one_accepter_witness :
    ((1 :: List.replicate 31 0 : PeerID).length = 32
      ∧ (List.replicate 32 0 : PeerID).length = 32
      ∧ (1 :: List.replicate 31 0 : PeerID) ≠ List.replicate 32 0)
    ∧ ((0 < P2P.compareIDs (1 :: List.replicate 31 0) (List.replicate 32 0)
        ∧ P2P.handleSimultaneousOffer (1 :: List.replicate 31 0)
            (List.replicate 32 0) = P2P.TiebreakOutcome.mk true true true
        ∧ P2P.handleSimultaneousOffer (List.replicate 32 0)
            (1 :: List.replicate 31 0) = P2P.TiebreakOutcome.mk false false false)
      ∨ (0 < P2P.compareIDs (List.replicate 32 0) (1 :: List.replicate 31 0)
        ∧ P2P.handleSimultaneousOffer (List.replicate 32 0)
            (1 :: List.replicate 31 0) = P2P.TiebreakOutcome.mk true true true
        ∧ P2P.handleSimultaneousOffer (1 :: List.replicate 31 0)
            (List.replicate 32 0)
            = P2P.TiebreakOutcome.mk false false false)) :=
  ⟨⟨by decide, by decide, by decide⟩,
    tiebreak_exactly_one_accepter (1 :: List.replicate 31 0)
      (List.replicate 32 0) (by decide) (by decide) (by decide)⟩

/-! ## C3 — seal/open round trip and ciphertext layout -/

theorem xorKs_length (k : Nat) (nonce : Bytes) :
    ∀ (i : Nat) (bs : Bytes), (P2P.xorKs k nonce i bs).length = bs.length := by
  intro i bs
  induction bs generalizing i with
  | nil => rfl
  | cons b bs ih =>
    unfold P2P.xorKs
    simp only [List.length_cons, ih]

theorem xorKs_involutive (k : Nat) (nonce : Bytes) :
    ∀ (i : Nat) (bs : Bytes),
      P2P.xorKs k nonce i (P2P.xorKs k nonce i bs) = bs := by
  intro i bs
  induction bs generalizing i with
  | nil => rfl
  | cons b bs ih =>
    simp only [P2P.xorKs, List.cons.injEq]
    exact ⟨by simp [Nat.xor_assoc], ih (i + 1)⟩

theorem tagBytes_length (k : Nat) (nonce ct : Bytes) :
    (P2P.tagBytes k nonce ct).length = 16 := by
  simp [P2P.tagBytes]

theorem boxSeal_length (m nonce : Bytes) (peerPub ourPriv : P2P.Key) :
    (P2P.boxSeal m nonce peerPub ourPriv).length = m.length + 16 := by
  unfold P2P.boxSeal
  rw [List.length_append, xorKs_length, tagBytes_length]

theorem sharedKey_comm (aPriv bPriv : P2P.Key) :
    P2P.sharedKey aPriv (P2P.scalarBaseMult bPriv)
      = P2P.sharedKey bPriv (P2P.scalarBaseMult aPriv) := by
  unfold P2P.sharedKey P2P.scalarBaseMult
  rw [← Nat.pow_mod, ← Nat.pow_mod, ← pow_mul, ← pow_mul, Nat.mul_comm]

/-- C3: for every plaintext, every 24-byte nonce and every pair of valid
keypairs (public key derived from the private scalar), `EncryptMessage`
returns a byte string of length `24 + |m| + 16` whose first 24 bytes are
the nonce, and `DecryptMessage` with the matching keys returns exactly the
plaintext. -/
theorem encrypt_decrypt_roundtrip (m nonce : Bytes) (sPriv rPriv : P2P.Key)
    (hn : nonce.length = 24) :
    (P2P.EncryptMessage m (P2P.scalarBaseMult rPriv) sPriv nonce).length
        = 24 + m.length + 16
    ∧ (P2P.EncryptMessage m (P2P.scalarBaseMult rPriv) sPriv nonce).take 24
        = nonce
    ∧ P2P.DecryptMessage
        (P2P.EncryptMessage m (P2P.scalarBaseMult rPriv) sPriv nonce)
        (P2P.scalarBaseMult sPriv) rPriv = some m := by
  have hsl : (P2P.boxSeal m nonce (P2P.scalarBaseMult rPriv) sPriv).length
      = m.length + 16 := boxSeal_length m nonce (P2P.scalarBaseMult rPriv) sPriv
  have henl : (P2P.EncryptMessage m (P2P.scalarBaseMult rPriv) sPriv nonce).length
      = 24 + m.length + 16 := by
    unfold P2P.EncryptMessage
    rw [List.length_append, hn, hsl]
    omega
  refine ⟨henl, ?_, ?_⟩
  · unfold P2P.EncryptMessage
    exact List.take_left' hn
  · unfold P2P.DecryptMessage
    rw [if_neg (by rw [henl]; omega)]
    unfold P2P.EncryptMessage
    rw [List.drop_left' hn, List.take_left' hn]
    unfold P2P.boxOpen
    rw [if_neg (by rw [hsl]; omega)]
    have hkey : P2P.sharedKey rPriv (P2P.scalarBaseMult sPriv)
        = P2P.sharedKey sPriv (P2P.scalarBaseMult rPriv) :=
      sharedKey_comm rPriv sPriv
    have hxl : (P2P.xorKs (P2P.sharedKey sPriv (P2P.scalarBaseMult rPriv))
        nonce 0 m).length
        = (P2P.boxSeal m nonce (P2P.scalarBaseMult rPriv) sPriv).length - 16 := by
      rw [hsl, xorKs_length]
      omega
    have htake : (P2P.boxSeal m nonce (P2P.scalarBaseMult rPriv) sPriv).take
        ((P2P.boxSeal m nonce (P2P.scalarBaseMult rPriv) sPriv).length - 16)
        = P2P.xorKs (P2P.sharedKey sPriv (P2P.scalarBaseMult rPriv)) nonce 0 m := by
      conv_lhs => rw [P2P.boxSeal]
      exact List.take_left' hxl
    have hdrop : (P2P.boxSeal m nonce (P2P.scalarBaseMult rPriv) sPriv).drop
        ((P2P.boxSeal m nonce (P2P.scalarBaseMult rPriv) sPriv).length - 16)
        = P2P.tagBytes (P2P.sharedKey sPriv (P2P.scalarBaseMult rPriv)) nonce
            (P2P.xorKs (P2P.sharedKey sPriv (P2P.scalarBaseMult rPriv)) nonce 0 m) := by
      conv_lhs => rw [P2P.boxSeal]
      exact List.drop_left' hxl
    rw [htake, hdrop, hkey, if_pos rfl, xorKs_involutive]

/-- C3 (witness): the round trip at plaintext `[104, 105]`, an all-2 nonce
and private scalars 3 and 5. -/
theorem encrypt_decrypt_roundtrip_witness :
    ((List.replicate 24 2 : Bytes).length = 24)
    ∧ ((P2P.EncryptMessage [104, 105] (P2P.scalarBaseMult 5) 3
          (List.replicate 24 2)).length = 24 + ([104, 105] : Bytes).length + 16
      ∧ (P2P.EncryptMessage [104, 105] (P2P.scalarBaseMult 5) 3
          (List.replicate 24 2)).take 24 = List.replicate 24 2
      ∧ P2P.DecryptMessage
          (P2P.EncryptMessage [104, 105] (P2P.scalarBaseMult 5) 3
            (List.replicate 24 2))
          (P2P.scalarBaseMult 3) 5 = some [104, 105]) :=
  ⟨by decide,
    encrypt_decrypt_roundtrip [104, 105] (List.replicate 24 2) 3 5 (by decide)⟩

end Sendy
